import Mathlib

/-!
A shallow embedding of the scene-editing core of the 3D-Studio repository
(src/src/App.js, src/src/components/ThreeScene.js, src/src/utils.js).

Modelling conventions:
* JavaScript numbers appearing in object fields that can hold `NaN` or
  `undefined` are modelled by `JSValue`; transform components, which the
  store always coerces with `parseFloat(v) || 0`, are plain rationals.
* Nondeterministic inputs (`generateId()`, `Math.random()` positions,
  random palette colors, wall-clock timestamps) are passed to each
  operation as explicit parameters; `HistoryEntry` keeps only the fields
  a claim can observe (`label`, `snapshot`) — its random `id` and
  timestamp are opaque metadata never read back by the program logic.
* `JSON.parse(JSON.stringify(x))` on the plain data handled here is the
  identity except that `undefined` fields disappear, which `Option`
  models directly.
* The external boolean-mesh evaluator (`three-bvh-csg`) and the three.js
  geometry constructors are outside the repository; `performCSG` takes
  the evaluator's result geometry as a parameter (a list of vertices),
  and the bounding-box/centroid arithmetic that App.js performs on that
  result is embedded exactly (componentwise min/max box, box center,
  translate).
-/

/-- A JavaScript value as stored in the dynamically-typed object fields:
`undefined`, a string, a boolean, a finite number, or `NaN`. -/
inductive JSValue where
  | undef : JSValue
  | jstr : String → JSValue
  | jbool : Bool → JSValue
  | jnum : ℚ → JSValue
  | jnan : JSValue
deriving DecidableEq, Repr

/-- JavaScript strict inequality `!==` on the values above: `NaN !== NaN`
is true, otherwise structural. -/
def jsNeq (a b : JSValue) : Bool :=
  match a, b with
  | .jnan, _ => true
  | _, .jnan => true
  | x, y => decide (x ≠ y)

/-- Digit run at the head of a character list. -/
def takeDigits (cs : List Char) : List Char × List Char :=
  (cs.takeWhile Char.isDigit, cs.dropWhile Char.isDigit)

/-- Numeric value of a digit run. -/
def digitsToNat (ds : List Char) : ℕ :=
  ds.foldl (fun a c => 10 * a + (c.toNat - 48)) 0

/-- JavaScript `parseFloat` on a string: skip leading whitespace, optional
sign, a decimal literal (digits, optionally a dot and more digits); if no
digit is consumed the result is `NaN`.  Exponent forms and `Infinity`,
which no UI input in this program produces, are not modelled. -/
def parseFloat (s : String) : JSValue :=
  let cs := s.toList.dropWhile Char.isWhitespace
  let sg : ℚ × List Char :=
    match cs with
    | '-' :: r => (-1, r)
    | '+' :: r => (1, r)
    | _ => (1, cs)
  let ip := takeDigits sg.2
  let fp : List Char :=
    match ip.2 with
    | '.' :: r => (takeDigits r).1
    | _ => []
  if ip.1.isEmpty ∧ fp.isEmpty then JSValue.jnan
  else JSValue.jnum
    (sg.1 * ((digitsToNat ip.1 : ℚ) + (digitsToNat fp : ℚ) / (10 : ℚ) ^ fp.length))

/-- `parseFloat` applied to an arbitrary JS value, as the code does in
`updateExtrudeSetting`: numbers pass through (via their decimal string),
anything non-numeric yields `NaN`. -/
def parseFloatVal (v : JSValue) : JSValue :=
  match v with
  | .jstr s => parseFloat s
  | .jnum q => .jnum q
  | _ => .jnan

/-- JavaScript `x || 0` after a `parseFloat`: `NaN` (and any non-number)
falls back to `0`; a finite number is kept (`0 || 0` is `0`). -/
def orZero (v : JSValue) : ℚ :=
  match v with
  | .jnum q => q
  | _ => 0

/-- A 3-component vector (`position`, `rotation`, `scale` arrays). -/
structure Vec3 where
  x : ℚ
  y : ℚ
  z : ℚ
deriving DecidableEq, Repr

/-- Componentwise subtraction (`geometry.translate(-c)` moves every vertex
by `-c`). -/
def Vec3.sub (a b : Vec3) : Vec3 := ⟨a.x - b.x, a.y - b.y, a.z - b.z⟩

/-- Write component `0`/`1`/`2` of a transform array, as
`newTransform[idx] = v` does. -/
def Vec3.setIdx (v : Vec3) (idx : ℕ) (q : ℚ) : Vec3 :=
  if idx = 0 then { v with x := q }
  else if idx = 1 then { v with y := q }
  else if idx = 2 then { v with z := q }
  else v

/-- The `extrudeSettings` record; every field is a JS value so that the
dynamic writes of `updateExtrudeSetting` (numbers, `NaN`, the raw
`bevelEnabled` value, absent fields) are representable. -/
structure ExtrudeSettings where
  depth : JSValue
  bevelEnabled : JSValue
  bevelThickness : JSValue
  bevelSize : JSValue
  bevelSegments : JSValue
deriving DecidableEq, Repr

/-- The record `{}` produced by spreading an absent `extrudeSettings`. -/
def emptyExtrude : ExtrudeSettings :=
  ⟨.undef, .undef, .undef, .undef, .undef⟩

/-- Default extrusion settings assigned by `addObject` to extrudable
shapes. -/
def defaultExtrude : ExtrudeSettings :=
  ⟨.jnum (1/2), .jbool true, .jnum (1/10), .jnum (1/10), .jnum 3⟩

/-- The `mirror` modifier sub-record `{enabled, axis}`. -/
structure Mirror where
  enabled : Bool
  axis : String
deriving DecidableEq, Repr

/-- Geometry as the external evaluator hands it back: a list of vertex
positions (the only aspect App.js computes with — bounding box, center,
translate). -/
abbrev Geometry := List Vec3

/-- One scene object, with the fields App.js reads or writes.  Optional
fields are `undefined` when absent. -/
structure SceneObject where
  id : String
  type : String
  position : Vec3
  rotation : Vec3
  scale : Vec3
  color : JSValue
  wireframe : JSValue
  extrudeSettings : Option ExtrudeSettings := none
  mirror : Option Mirror := none
  format : Option String := none
  url : Option String := none
  data : Option Geometry := none
  name : JSValue := .undef
deriving DecidableEq, Repr

/-- One history-log entry: the action label and the deep-copied snapshot.
The log entry also carries a random id and a wall-clock timestamp; both
are opaque metadata the program never reads back, so they are not
modelled. -/
structure HistoryEntry where
  label : String
  snapshot : List SceneObject
deriving DecidableEq, Repr

/-- The App component's state: `objects`, `historyLog`, `selectedIds`,
`activeTool`. -/
structure AppState where
  objects : List SceneObject
  historyLog : List HistoryEntry
  selectedIds : List String
  activeTool : String
deriving DecidableEq, Repr

/-- `l.slice(-n)` — the last `n` elements of `l`. -/
def takeLast (n : ℕ) (l : List α) : List α :=
  (l.reverse.take n).reverse

/-- `updateState(newObjects, actionLabel)`: store the new object list and
append a history entry with a deep copy of it, keeping only the last 20
entries (`[...prev, newEntry].slice(-20)`). -/
def updateState (st : AppState) (newObjects : List SceneObject) (label : String) :
    AppState :=
  { st with
    objects := newObjects
    historyLog := takeLast 20 (st.historyLog ++ [⟨label, newObjects⟩]) }

/-- Enumerated transform kind (`'position' | 'rotation' | 'scale'`), the
only values the UI passes as the `type` argument of `updateTransform`. -/
inductive TKind where
  | position | rotation | scale
deriving DecidableEq, Repr

/-- The string the UI passes for each transform kind (used in labels). -/
def tkindStr : TKind → String
  | .position => "position"
  | .rotation => "rotation"
  | .scale => "scale"

/-- Read the addressed transform array of an object (`obj[type]`). -/
def SceneObject.getT (o : SceneObject) : TKind → Vec3
  | .position => o.position
  | .rotation => o.rotation
  | .scale => o.scale

/-- Replace the addressed transform array of an object. -/
def SceneObject.setT (o : SceneObject) (k : TKind) (v : Vec3) : SceneObject :=
  match k with
  | .position => { o with position := v }
  | .rotation => { o with rotation := v }
  | .scale => { o with scale := v }

/-- `updateTransform(id, type, axis, value)`: parse the raw value with
`parseFloat(value) || 0`, write only the addressed axis component
(`x`/`y`/`z`, anything else falls back to index 0), and log
`Set <AXIS> <type> of <id>`. -/
def updateTransform (st : AppState) (id : String) (k : TKind) (axis : String)
    (value : String) : AppState :=
  let idx : ℕ := if axis = "x" then 0 else if axis = "y" then 1
    else if axis = "z" then 2 else 0
  let newObjects := st.objects.map fun o =>
    if o.id = id then o.setT k ((o.getT k).setIdx idx (orZero (parseFloat value)))
    else o
  updateState st newObjects
    ("Set " ++ axis.toUpper ++ " " ++ tkindStr k ++ " of " ++ id)

/-- The whole-replace fields the UI passes to `updateObject`. -/
inductive ObjField where
  | color | wireframe | name
deriving DecidableEq, Repr

/-- The string name of each field (used in labels). -/
def objFieldStr : ObjField → String
  | .color => "color"
  | .wireframe => "wireframe"
  | .name => "name"

/-- `{ ...obj, [field]: value }`. -/
def SceneObject.setField (o : SceneObject) (f : ObjField) (v : JSValue) :
    SceneObject :=
  match f with
  | .color => { o with color := v }
  | .wireframe => { o with wireframe := v }
  | .name => { o with name := v }

/-- `updateObject(id, field, value)`: whole-field replace, logged as
`Update <field> of <id>`. -/
def updateObject (st : AppState) (id : String) (f : ObjField) (v : JSValue) :
    AppState :=
  let newObjects := st.objects.map fun o =>
    if o.id = id then o.setField f v else o
  updateState st newObjects ("Update " ++ objFieldStr f ++ " of " ++ id)

/-- The extrusion settings the UI passes to `updateExtrudeSetting`. -/
inductive ESetting where
  | depth | bevelEnabled | bevelThickness | bevelSize | bevelSegments
deriving DecidableEq, Repr

/-- The string name of each extrusion setting (used in labels). -/
def esettingStr : ESetting → String
  | .depth => "depth"
  | .bevelEnabled => "bevelEnabled"
  | .bevelThickness => "bevelThickness"
  | .bevelSize => "bevelSize"
  | .bevelSegments => "bevelSegments"

/-- `{ ...settings, [setting]: v }`. -/
def ExtrudeSettings.set (s : ExtrudeSettings) (k : ESetting) (v : JSValue) :
    ExtrudeSettings :=
  match k with
  | .depth => { s with depth := v }
  | .bevelEnabled => { s with bevelEnabled := v }
  | .bevelThickness => { s with bevelThickness := v }
  | .bevelSize => { s with bevelSize := v }
  | .bevelSegments => { s with bevelSegments := v }

/-- `updateExtrudeSetting(id, setting, value)`: `bevelEnabled` is stored
as-is, every other setting is stored as `parseFloat(value)` — with no
`|| 0` fallback, so a malformed value is stored as `NaN`.  The settings
record is spread from the existing one (or from `{}` when absent). -/
def updateExtrudeSetting (st : AppState) (id : String) (k : ESetting)
    (v : JSValue) : AppState :=
  let newObjects := st.objects.map fun o =>
    if o.id = id then
      let s := o.extrudeSettings.getD emptyExtrude
      let v1 := if k = .bevelEnabled then v else parseFloatVal v
      { o with extrudeSettings := some (s.set k v1) }
    else o
  updateState st newObjects ("Update " ++ esettingStr k)

/-- A write to the mirror sub-record: the UI passes `enabled` (a boolean)
or `axis` (one of the strings `x`, `y`, `z`). -/
inductive MirrorSet where
  | setEnabled (b : Bool)
  | setAxis (a : String)
deriving DecidableEq, Repr

/-- The setting name (used in labels). -/
def mirrorSetStr : MirrorSet → String
  | .setEnabled _ => "enabled"
  | .setAxis _ => "axis"

/-- `{ ...(obj.mirror || {enabled:false, axis:'x'}), [setting]: value }`. -/
def Mirror.apply (m : Mirror) : MirrorSet → Mirror
  | .setEnabled b => { m with enabled := b }
  | .setAxis a => { m with axis := a }

/-- `updateMirrorSetting(id, setting, value)`: merge into the object's
mirror record, defaulting to `{enabled:false, axis:'x'}` when absent;
logged as `Update Mirror <setting>`. -/
def updateMirrorSetting (st : AppState) (id : String) (ms : MirrorSet) :
    AppState :=
  let newObjects := st.objects.map fun o =>
    if o.id = id then
      { o with mirror := some ((o.mirror.getD ⟨false, "x"⟩).apply ms) }
    else o
  updateState st newObjects ("Update Mirror " ++ mirrorSetStr ms)

/-- The fresh object `addObject(type)` builds: random planar position and
palette color are passed in as parameters; extrudable shapes get the
default extrusion settings. -/
def addedObject (type freshId : String) (px py : ℚ) (colr : String) :
    SceneObject :=
  { id := freshId
    type := type
    position := ⟨px, py, 0⟩
    rotation := ⟨0, 0, 0⟩
    scale := ⟨1, 1, 1⟩
    color := .jstr colr
    wireframe := .jbool false
    extrudeSettings := if type.startsWith "ex_" then some defaultExtrude else none
    mirror := some ⟨false, "x"⟩ }

/-- `addObject(type)` proper: append the new object, log `Add <type>`,
select it and switch the active tool to `move`. -/
def addObject (st : AppState) (type : String) (freshId : String)
    (px py : ℚ) (colr : String) : AppState :=
  let newObj := addedObject type freshId px py colr
  let st1 := updateState st (st.objects ++ [newObj]) ("Add " ++ type)
  { st1 with selectedIds := [freshId], activeTool := "move" }

/-- `onUpdateObjectPosition(id, newPos)` — the single drag-commit on
pointer-up: whole-replace the position, log `Move Object <id>`. -/
def onUpdateObjectPosition (st : AppState) (id : String) (newPos : Vec3) :
    AppState :=
  let newObjects := st.objects.map fun o =>
    if o.id = id then { o with position := newPos } else o
  updateState st newObjects ("Move Object " ++ id)

/-- `deleteObject(id)`: drop the object, log `Delete Object <id>`, prune
the id from the selection. -/
def deleteObject (st : AppState) (id : String) : AppState :=
  let newObjects := st.objects.filter fun o => o.id ≠ id
  let st1 := updateState st newObjects ("Delete Object " ++ id)
  { st1 with selectedIds := st.selectedIds.filter fun i => i ≠ id }

/-- The body of the Delete/Backspace key handler once its guard has
passed: drop every selected object, log `Delete Selected`, clear the
selection. -/
def deleteSelected (st : AppState) : AppState :=
  let newObjects := st.objects.filter fun o => ¬ st.selectedIds.contains o.id
  let st1 := updateState st newObjects "Delete Selected"
  { st1 with selectedIds := [] }

/-- The Delete/Backspace key handler: acts only when focus is outside a
text field and the selection is nonempty. -/
def handleDeleteKey (st : AppState) (isInputFocused : Bool) : AppState :=
  if ¬ isInputFocused ∧ st.selectedIds ≠ [] then deleteSelected st else st

/-- `restoreState(snapshot)`: replace the object list wholesale and clear
the selection; the history log is not touched. -/
def restoreState (st : AppState) (snapshot : List SceneObject) : AppState :=
  { st with objects := snapshot, selectedIds := [] }

/-- Clicking a history entry calls `restoreState(entry.snapshot)`. -/
def restoreEntry (st : AppState) (e : HistoryEntry) : AppState :=
  restoreState st e.snapshot

/-- `onSelect(id, multi)`: a null id clears the selection unless `multi`;
otherwise multi-select toggles membership and single-select replaces the
set. -/
def onSelect (st : AppState) (id : Option String) (multi : Bool) : AppState :=
  match id with
  | none => if multi then st else { st with selectedIds := [] }
  | some i =>
    { st with selectedIds :=
        if multi then
          if st.selectedIds.contains i then st.selectedIds.filter (fun j => j ≠ i)
          else st.selectedIds ++ [i]
        else [i] }

/-- The imported `model` object the `addModel` closure inside
`handleFileUpload` builds for the uploaded file. -/
def importedObject (freshId url fmt nm : String) : SceneObject :=
  { id := freshId
    type := "model"
    format := some fmt
    url := some url
    name := .jstr nm
    position := ⟨0, 0, 0⟩
    rotation := ⟨0, 0, 0⟩
    scale := ⟨1, 1, 1⟩
    color := .jstr "#ffffff"
    wireframe := .jbool false
    mirror := some ⟨false, "x"⟩ }

/-- `addModel` proper: append the imported object, log `Import <name>`,
select it. -/
def addModel (st : AppState) (freshId url fmt nm : String) : AppState :=
  let newObj := importedObject freshId url fmt nm
  let st1 := updateState st (st.objects ++ [newObj]) ("Import " ++ nm)
  { st1 with selectedIds := [freshId] }

/-- The full-scene branch of `handleFileUpload`: a parsed JSON array
replaces the snapshot wholesale via `updateState(json, `Load Scene ...`)`;
the selection set is left untouched. -/
def loadScene (st : AppState) (json : List SceneObject) (fileName : String) :
    AppState :=
  updateState st json ("Load Scene " ++ fileName)

/-- The boolean operator constants imported from the external evaluator. -/
inductive CSGOp where
  | ADDITION | SUBTRACTION | INTERSECTION
deriving DecidableEq, Repr

/-- Smallest element of a list of rationals (componentwise bounding-box
building block); three.js leaves an empty box for empty geometry, a case
the theorems exclude, so the empty list maps to `0`. -/
def listMin : List ℚ → ℚ
  | [] => 0
  | a :: t => t.foldl min a

/-- Largest element of a list of rationals. -/
def listMax : List ℚ → ℚ
  | [] => 0
  | a :: t => t.foldl max a

/-- `geometry.computeBoundingBox(); boundingBox.getCenter(center)`: the
box is the componentwise min/max of the vertices and the center its
midpoint. -/
def bboxCenter (g : Geometry) : Vec3 :=
  ⟨(listMin (g.map Vec3.x) + listMax (g.map Vec3.x)) / 2,
   (listMin (g.map Vec3.y) + listMax (g.map Vec3.y)) / 2,
   (listMin (g.map Vec3.z) + listMax (g.map Vec3.z)) / 2⟩

/-- `geometry.translate(-c.x, -c.y, -c.z)`: move every vertex by `-c`. -/
def translateGeo (g : Geometry) (c : Vec3) : Geometry :=
  g.map fun v => v.sub c

/-- The derived object `performCSG` persists for a successful evaluation:
a `model` object carrying the serialized result (`format: 'json_data'`),
positioned at the result's bounding-box center, identity
rotation, unit scale, white, non-wireframe. -/
def csgResultObject (freshId : String) (center : Vec3) (translated : Geometry) :
    SceneObject :=
  { id := freshId
    type := "model"
    format := some "json_data"
    data := some translated
    name := .jstr "CSG Result"
    position := center
    rotation := ⟨0, 0, 0⟩
    scale := ⟨1, 1, 1⟩
    color := .jstr "#ffffff"
    wireframe := .jbool false
    mirror := some ⟨false, "x"⟩ }

/-- `performCSG(op)`.  Control flow of App.js: reject unless exactly two
ids are selected (alert); silently return if either id resolves to no
object; reject if either operand is an imported/derived `model` (alert);
otherwise evaluate the boolean operator on the two positioned brushes —
the external evaluator's result geometry is passed in as `resultGeo` —
re-center it on its bounding-box center, replace both operands with the
derived object, select it, and log `CSG Operation`.  The second component
is the alert message, when one is raised. -/
def performCSG (st : AppState) (op : CSGOp) (freshId : String)
    (resultGeo : Geometry) : AppState × Option String :=
  match st.selectedIds with
  | [a, b] =>
    match st.objects.find? (fun o => o.id = a),
        st.objects.find? (fun o => o.id = b) with
    | some o1, some o2 =>
      if o1.type = "model" ∨ o2.type = "model" then
        (st, some "CSG only supports primitives/shapes for now.")
      else
        let _ := op
        let center := bboxCenter resultGeo
        let translated := translateGeo resultGeo center
        let newObj := csgResultObject freshId center translated
        let kept := st.objects.filter fun o => ¬ st.selectedIds.contains o.id
        let st1 := updateState st (kept ++ [newObj]) "CSG Operation"
        ({ st1 with selectedIds := [freshId] }, none)
    | _, _ => (st, none)
  | _ =>
    (st, some ("Please select exactly 2 objects. Currently selected: "
      ++ toString st.selectedIds.length))

/-! ## Viewport Interaction Controller (ThreeScene.js) -/

/-- A cached renderable (mesh/group) as far as the reconciliation logic
observes it: its transform, plus the `userData` extrusion-settings cache
written at build time and read by the rebuild check.  Geometry identity
(used only to decide whether a mirror clone is rebuilt, never affecting
the transforms the claims are about) is not modelled. -/
structure Renderable where
  position : Vec3
  rotation : Vec3
  scale : Vec3
  ud : Option ExtrudeSettings
deriving DecidableEq, Repr

/-- The renderable cache `meshesRef.current`: a JS object keyed by id,
modelled as an association list with unique keys. -/
abbrev Cache := List (String × Renderable)

/-- `cache[k] = v` on a JS object: overwrite the existing entry, or
append a new key. -/
def cacheInsert (k : String) (v : Renderable) (c : Cache) : Cache :=
  if (c.lookup k).isSome then
    c.map fun p => if p.1 = k then (k, v) else p
  else c ++ [(k, v)]

/-- `delete cache[k]`. -/
def cacheErase (k : String) (c : Cache) : Cache :=
  c.filter fun p => p.1 ≠ k

/-- A freshly built renderable: a new mesh/group has identity transforms
until the sync code sets them; for generated shapes with extrusion
settings the build stores those settings in `userData` (`model` groups
store none). -/
def freshRenderable (obj : SceneObject) : Renderable :=
  { position := ⟨0, 0, 0⟩
    rotation := ⟨0, 0, 0⟩
    scale := ⟨1, 1, 1⟩
    ud := if obj.type = "model" then none else obj.extrudeSettings }

/-- The stale-extrusion check: a cached mesh is rebuilt when the object
has extrusion settings and any of the five `userData` fields differs
(JS `!==`, so a `NaN` setting always mismatches). -/
def needsRebuild (r : Renderable) (obj : SceneObject) : Bool :=
  match obj.extrudeSettings with
  | none => false
  | some s =>
    let ud := r.ud.getD emptyExtrude
    jsNeq ud.depth s.depth || jsNeq ud.bevelThickness s.bevelThickness ||
      jsNeq ud.bevelSize s.bevelSize || jsNeq ud.bevelEnabled s.bevelEnabled ||
      jsNeq ud.bevelSegments s.bevelSegments

/-- The derived key of the mirror clone. -/
def mirrorKey (id : String) : String := id ++ "_mirror"

/-- Negate the scale component named by the mirror axis. -/
def mirrorScale (axis : String) (v : Vec3) : Vec3 :=
  if axis = "x" then { v with x := -v.x }
  else if axis = "y" then { v with y := -v.y }
  else if axis = "z" then { v with z := -v.z }
  else v

/-- The primary renderable after one loop iteration: rebuild or reuse the
cached mesh, then sync its transform from the object — the position only
when no selected-object drag is in progress (a fresh mesh keeps identity
transforms until synced). -/
def primOf (drag : Bool) (sel : List String) (c : Cache) (obj : SceneObject) :
    Renderable :=
  let prim0 : Renderable :=
    match c.lookup obj.id with
    | some r => if needsRebuild r obj then freshRenderable obj else r
    | none => freshRenderable obj
  let pos := if ¬ drag ∨ ¬ sel.contains obj.id then obj.position
    else prim0.position
  { prim0 with position := pos, rotation := obj.rotation, scale := obj.scale }

/-- The mirror-clone maintenance of one loop iteration, applied to the
cache after the primary has been stored: when the modifier is on, the
clone (rebuilt when absent, otherwise reused — geometry identity not
modelled) gets the primary's transform with the configured scale axis
negated; when off, the clone is removed from cache and scene. -/
def mirrorStep (c1 : Cache) (obj : SceneObject) (prim : Renderable) : Cache :=
  match obj.mirror with
  | some m =>
    if m.enabled then
      let mir0 := (c1.lookup (mirrorKey obj.id)).getD prim
      cacheInsert (mirrorKey obj.id)
        { mir0 with position := prim.position, rotation := prim.rotation, scale := mirrorScale m.axis prim.scale } c1
    else cacheErase (mirrorKey obj.id) c1
  | none => cacheErase (mirrorKey obj.id) c1

/-- One iteration of the reconciliation loop body for a single object:
store the synced primary renderable, then maintain the mirror clone. -/
def syncObj (drag : Bool) (sel : List String) (c : Cache) (obj : SceneObject) :
    Cache :=
  let prim := primOf drag sel c obj
  mirrorStep (cacheInsert obj.id prim c) obj prim

/-- The ids the cleanup phase treats as live: every object id, plus the
mirror key of every object whose mirror modifier is enabled. -/
def validIds (objs : List SceneObject) : List String :=
  objs.flatMap fun o =>
    o.id :: (match o.mirror with
      | some m => if m.enabled then [mirrorKey o.id] else []
      | none => [])

/-- The cleanup phase: drop every cache entry whose key is no longer
valid (deleted objects and their stale mirror clones). -/
def cleanupCache (objs : List SceneObject) (c : Cache) : Cache :=
  c.filter fun p => (validIds objs).contains p.1

/-- One full reconciliation pass over the snapshot (the body of the
`useEffect` keyed on `objects`/`selectedIds`). -/
def syncPass (drag : Bool) (sel : List String) (objs : List SceneObject)
    (c : Cache) : Cache :=
  cleanupCache objs (objs.foldl (syncObj drag sel) c)

/-- What the pick ray resolved for a pointer-down: no intersection at
all, a hit whose ancestor chain carries no object id, or a hit resolving
to the tagged id. -/
inductive PickResult where
  | miss
  | hitUntagged
  | hitTagged (id : String)
deriving DecidableEq, Repr

/-- The selection effect of `onDown` in ThreeScene.js: a tagged hit calls
`onSelect(id, e.shiftKey)`; an untagged hit changes no selection; a miss
calls `onSelect(null)` — with no second argument, so `multi` defaults to
`false` there regardless of the shift key. -/
def onDown (st : AppState) (pick : PickResult) (shift : Bool) : AppState :=
  match pick with
  | .hitTagged id => onSelect st (some id) shift
  | .hitUntagged => st
  | .miss => onSelect st none false

/-! ## Helper lemmas -/

theorem takeLast_length (n : ℕ) (l : List α) :
    (takeLast n l).length = min n l.length := by
  simp [takeLast]

theorem takeLast_of_length_le {n : ℕ} {l : List α} (h : l.length ≤ n) :
    takeLast n l = l := by
  unfold takeLast
  rw [List.take_of_length_le (by simpa using h), List.reverse_reverse]

theorem map_takeLast (f : α → β) (n : ℕ) (l : List α) :
    (takeLast n l).map f = takeLast n (l.map f) := by
  simp [takeLast, List.map_reverse, List.map_take]

theorem take_append_take (n : ℕ) (a b : List α) :
    List.take n (a ++ List.take n b) = List.take n (a ++ b) := by
  rw [List.take_append_eq_append_take, List.take_append_eq_append_take,
    List.take_take, Nat.min_eq_left (Nat.sub_le _ _)]

theorem takeLast_append_takeLast (n : ℕ) (l l' : List α) :
    takeLast n (takeLast n l ++ l') = takeLast n (l ++ l') := by
  unfold takeLast
  rw [List.reverse_append, List.reverse_reverse, List.reverse_append,
    take_append_take]

theorem takeLast_append_of_length {n : ℕ} {b : List α} (a : List α)
    (hb : b.length = n) : takeLast n (a ++ b) = b := by
  unfold takeLast
  rw [List.reverse_append, List.take_append_eq_append_take,
    List.take_of_length_le (by simp [hb]), List.length_reverse, hb,
    Nat.sub_self, List.take_zero, List.append_nil, List.reverse_reverse]

/-! ## C6 / C7 — restore -/

/-- C6: restoring a history entry replaces the live snapshot wholesale
with the entry's snapshot, clears the selection set, and leaves the
history log (and the active tool) untouched — no entry is appended and
none removed. -/
theorem restore_replaces_clears_keeps_log (st : AppState) (e : HistoryEntry) :
    (restoreEntry st e).objects = e.snapshot ∧
      (restoreEntry st e).selectedIds = [] ∧
      (restoreEntry st e).historyLog = st.historyLog ∧
      (restoreEntry st e).activeTool = st.activeTool := by
  refine ⟨rfl, rfl, rfl, rfl⟩

/-- C7: restore is idempotent — restoring the same entry twice in a row
yields a live snapshot deep-equal to the one after the first restore (in
fact the whole state is unchanged by the second restore). -/
theorem restore_idempotent (st : AppState) (e : HistoryEntry) :
    (restoreEntry (restoreEntry st e) e).objects = (restoreEntry st e).objects ∧
      restoreEntry (restoreEntry st e) e = restoreEntry st e := by
  exact ⟨rfl, rfl⟩

/-! ## C1 — bounded FIFO history -/

/-- One mutating operation of the Scene State Store (every operation that
calls `updateState` unconditionally; `performCSG` appends only on success
and is treated separately, restore appends nothing). -/
inductive MutOp where
  | add (type freshId : String) (px py : ℚ) (colr : String)
  | transform (id : String) (k : TKind) (axis : String) (value : String)
  | field (id : String) (f : ObjField) (v : JSValue)
  | extrude (id : String) (k : ESetting) (v : JSValue)
  | mirrorSet (id : String) (ms : MirrorSet)
  | move (id : String) (p : Vec3)
  | del (id : String)
  | delSelected
  | importModel (freshId url fmt nm : String)
  | load (json : List SceneObject) (fileName : String)

/-- Dispatch a mutating operation to its store function. -/
def applyMutOp (st : AppState) : MutOp → AppState
  | .add type freshId px py colr => addObject st type freshId px py colr
  | .transform id k axis value => updateTransform st id k axis value
  | .field id f v => updateObject st id f v
  | .extrude id k v => updateExtrudeSetting st id k v
  | .mirrorSet id ms => updateMirrorSetting st id ms
  | .move id p => onUpdateObjectPosition st id p
  | .del id => deleteObject st id
  | .delSelected => deleteSelected st
  | .importModel freshId url fmt nm => addModel st freshId url fmt nm
  | .load json fileName => loadScene st json fileName

/-- The history label each mutating operation logs. -/
def labelOf : MutOp → String
  | .add type _ _ _ _ => "Add " ++ type
  | .transform id k axis _ =>
    "Set " ++ axis.toUpper ++ " " ++ tkindStr k ++ " of " ++ id
  | .field id f _ => "Update " ++ objFieldStr f ++ " of " ++ id
  | .extrude _ k _ => "Update " ++ esettingStr k
  | .mirrorSet _ ms => "Update Mirror " ++ mirrorSetStr ms
  | .move id _ => "Move Object " ++ id
  | .del id => "Delete Object " ++ id
  | .delSelected => "Delete Selected"
  | .importModel _ _ _ nm => "Import " ++ nm
  | .load _ fileName => "Load Scene " ++ fileName

theorem applyMutOp_historyLog (st : AppState) (op : MutOp) :
    (applyMutOp st op).historyLog =
      takeLast 20 (st.historyLog ++ [⟨labelOf op, (applyMutOp st op).objects⟩]) := by
  cases op <;> rfl

theorem applyMutOp_log_length_le (st : AppState) (op : MutOp) :
    (applyMutOp st op).historyLog.length ≤ 20 := by
  rw [applyMutOp_historyLog, takeLast_length]
  exact Nat.min_le_left _ _

theorem foldl_applyMutOp_labels (ops : List MutOp) :
    ∀ st : AppState, st.historyLog.length ≤ 20 →
      ((ops.foldl applyMutOp st).historyLog).map HistoryEntry.label =
        takeLast 20 (st.historyLog.map HistoryEntry.label ++ ops.map labelOf) := by
  induction ops with
  | nil =>
    intro st h
    simp only [List.foldl_nil, List.map_nil, List.append_nil]
    exact (takeLast_of_length_le (by simpa using h)).symm
  | cons op ops ih =>
    intro st h
    have hstep := applyMutOp_historyLog st op
    have hlen := applyMutOp_log_length_le st op
    rw [List.foldl_cons, ih _ hlen, hstep, map_takeLast, List.map_append]
    simp only [List.map_cons, List.map_nil]
    rw [takeLast_append_takeLast]
    simp

/-- C1: the history log is a bounded FIFO of capacity 20.  Every mutating
operation except restore appends exactly one entry holding the resulting
snapshot, keeping only the newest 20 entries; `performCSG` either leaves
the log unchanged (rejection) or appends exactly one `CSG Operation`
entry; restore appends nothing.  After any sequence of 25 mutating
operations starting from an empty log, exactly 20 entries remain — the
oldest 5 evicted — and the newest entry's label is the 25th operation's
label. -/
theorem history_bounded_fifo :
    (∀ (st : AppState) (op : MutOp),
        (applyMutOp st op).historyLog =
          takeLast 20 (st.historyLog ++ [⟨labelOf op, (applyMutOp st op).objects⟩])) ∧
      (∀ (st : AppState) (op : CSGOp) (freshId : String) (geo : Geometry),
        (performCSG st op freshId geo).1.historyLog = st.historyLog ∨
          (performCSG st op freshId geo).1.historyLog =
            takeLast 20 (st.historyLog ++
              [⟨"CSG Operation", (performCSG st op freshId geo).1.objects⟩])) ∧
      (∀ (st : AppState) (e : HistoryEntry),
        (restoreEntry st e).historyLog = st.historyLog) ∧
      ∀ (st : AppState) (ops : List MutOp),
        st.historyLog = [] → ops.length = 25 →
          (ops.foldl applyMutOp st).historyLog.length = 20 ∧
            ((ops.foldl applyMutOp st).historyLog).map HistoryEntry.label =
              (ops.map labelOf).drop 5 := by
  refine ⟨applyMutOp_historyLog, ?_, fun _ _ => rfl, ?_⟩
  · intro st op freshId geo
    unfold performCSG
    match hsel : st.selectedIds with
    | [a, b] =>
      match h1 : st.objects.find? (fun o => o.id = a),
          h2 : st.objects.find? (fun o => o.id = b) with
      | some o1, some o2 =>
        by_cases hm : o1.type = "model" ∨ o2.type = "model"
        · simp [h1, h2, hm]
        · right
          simp [h1, h2, hm, updateState]
      | some o1, none => simp [h1, h2]
      | none, some o2 => simp [h1, h2]
      | none, none => simp [h1, h2]
    | [] => simp
    | [a] => simp
    | a :: b :: c :: r => simp
  · intro st ops h0 h25
    have hlabels := foldl_applyMutOp_labels ops st (by simp [h0])
    rw [h0] at hlabels
    simp only [List.map_nil, List.nil_append] at hlabels
    have hlen : (ops.map labelOf).length = 25 := by simp [h25]
    have hsplit : ops.map labelOf =
        (ops.map labelOf).take 5 ++ (ops.map labelOf).drop 5 :=
      (List.take_append_drop 5 (ops.map labelOf)).symm
    have hdlen : ((ops.map labelOf).drop 5).length = 20 := by
      simp [hlen]
    have : takeLast 20 (ops.map labelOf) = (ops.map labelOf).drop 5 := by
      nth_rewrite 1 [hsplit]
      rw [takeLast_append_of_length _ hdlen]
    rw [this] at hlabels
    constructor
    · have := congrArg List.length hlabels
      simpa [hdlen] using this
    · exact hlabels

/-- A state with an empty history log. -/
def emptyLogState : AppState := ⟨[], [], [], "select"⟩

/-- 25 concrete mutating operations. -/
def ops25 : List MutOp := List.replicate 25 (MutOp.del "z")

theorem history_bounded_fifo_witness :
    emptyLogState.historyLog = [] ∧ ops25.length = 25 ∧
      ((ops25.foldl applyMutOp emptyLogState).historyLog.length = 20 ∧
        ((ops25.foldl applyMutOp emptyLogState).historyLog).map HistoryEntry.label =
          (ops25.map labelOf).drop 5) :=
  ⟨rfl, rfl, history_bounded_fifo.2.2.2 emptyLogState ops25 rfl rfl⟩

/-! ## C2 — CSG precondition failures -/

/-- C2: whenever the selection does not hold exactly two ids, or both
selected ids resolve but either operand is an imported/derived `model`
object, `performCSG` raises a user-facing alert and returns the state
unchanged — object list, history log and selection set included. -/
theorem csg_precondition_rejects (st : AppState) (op : CSGOp) (freshId : String)
    (geo : Geometry)
    (h : st.selectedIds.length ≠ 2 ∨
      ∃ a b o1 o2, st.selectedIds = [a, b] ∧
        st.objects.find? (fun o => o.id = a) = some o1 ∧
        st.objects.find? (fun o => o.id = b) = some o2 ∧
        (o1.type = "model" ∨ o2.type = "model")) :
    (performCSG st op freshId geo).1 = st ∧
      (performCSG st op freshId geo).2.isSome := by
  rcases h with h | ⟨a, b, o1, o2, hsel, h1, h2, hm⟩
  · unfold performCSG
    match hsel : st.selectedIds with
    | [x, y] => exact absurd (by rw [hsel]; rfl) h
    | [] => simp
    | [x] => simp
    | x :: y :: z :: r => simp
  · unfold performCSG
    rw [hsel]
    simp [h1, h2, hm]

/-- A concrete primitive object. -/
def cubeA : SceneObject :=
  { id := "a", type := "cube", position := ⟨-2, 0, 0⟩, rotation := ⟨0, 0, 0⟩,
    scale := ⟨1, 1, 1⟩, color := .jstr "#6366f1", wireframe := .jbool false,
    mirror := some ⟨false, "x"⟩ }

/-- A state with one object selected (CSG must reject it). -/
def oneSelectedState : AppState := ⟨[cubeA], [], ["a"], "select"⟩

theorem csg_precondition_rejects_witness :
    (oneSelectedState.selectedIds.length ≠ 2 ∨
      ∃ a b o1 o2, oneSelectedState.selectedIds = [a, b] ∧
        oneSelectedState.objects.find? (fun o => o.id = a) = some o1 ∧
        oneSelectedState.objects.find? (fun o => o.id = b) = some o2 ∧
        (o1.type = "model" ∨ o2.type = "model")) ∧
      ((performCSG oneSelectedState CSGOp.ADDITION "n" []).1 = oneSelectedState ∧
        (performCSG oneSelectedState CSGOp.ADDITION "n" []).2.isSome) :=
  ⟨Or.inl (by decide),
    csg_precondition_rejects oneSelectedState CSGOp.ADDITION "n" []
      (Or.inl (by decide))⟩

/-! ## C3 — successful CSG evaluation -/

theorem foldl_min_map_sub (d : ℚ) (t : List ℚ) : ∀ a : ℚ,
    (t.map (fun q => q - d)).foldl min (a - d) = t.foldl min a - d := by
  induction t with
  | nil => intro a; simp
  | cons b t ih =>
    intro a
    simp only [List.map_cons, List.foldl_cons]
    rw [min_sub_sub_right, ih]

theorem foldl_max_map_sub (d : ℚ) (t : List ℚ) : ∀ a : ℚ,
    (t.map (fun q => q - d)).foldl max (a - d) = t.foldl max a - d := by
  induction t with
  | nil => intro a; simp
  | cons b t ih =>
    intro a
    simp only [List.map_cons, List.foldl_cons]
    rw [max_sub_sub_right, ih]

theorem listMin_map_sub (l : List ℚ) (d : ℚ) (h : l ≠ []) :
    listMin (l.map (fun q => q - d)) = listMin l - d := by
  match l with
  | [] => exact absurd rfl h
  | a :: t => simpa [listMin] using foldl_min_map_sub d t a

theorem listMax_map_sub (l : List ℚ) (d : ℚ) (h : l ≠ []) :
    listMax (l.map (fun q => q - d)) = listMax l - d := by
  match l with
  | [] => exact absurd rfl h
  | a :: t => simpa [listMax] using foldl_max_map_sub d t a

/-- Translating a nonempty geometry shifts its bounding-box center by the
same vector. -/
theorem bboxCenter_translateGeo (g : Geometry) (c : Vec3) (h : g ≠ []) :
    bboxCenter (translateGeo g c) = (bboxCenter g).sub c := by
  have hx : (translateGeo g c).map Vec3.x =
      (g.map Vec3.x).map (fun q => q - c.x) := by
    simp [translateGeo, Vec3.sub]
  have hy : (translateGeo g c).map Vec3.y =
      (g.map Vec3.y).map (fun q => q - c.y) := by
    simp [translateGeo, Vec3.sub]
  have hz : (translateGeo g c).map Vec3.z =
      (g.map Vec3.z).map (fun q => q - c.z) := by
    simp [translateGeo, Vec3.sub]
  have hgx : g.map Vec3.x ≠ [] := by simpa using h
  have hgy : g.map Vec3.y ≠ [] := by simpa using h
  have hgz : g.map Vec3.z ≠ [] := by simpa using h
  unfold bboxCenter
  rw [hx, hy, hz, listMin_map_sub _ _ hgx, listMax_map_sub _ _ hgx,
    listMin_map_sub _ _ hgy, listMax_map_sub _ _ hgy,
    listMin_map_sub _ _ hgz, listMax_map_sub _ _ hgz]
  simp only [Vec3.sub, Vec3.mk.injEq]
  refine ⟨by ring, by ring, by ring⟩

/-- Re-centering: translating a nonempty geometry by the negation of its
bounding-box center leaves a geometry whose bounding-box center is the
origin. -/
theorem bboxCenter_translate (g : Geometry) (h : g ≠ []) :
    bboxCenter (translateGeo g (bboxCenter g)) = ⟨0, 0, 0⟩ := by
  rw [bboxCenter_translateGeo g _ h]
  simp [Vec3.sub]

/-- C3: a successful CSG evaluation (two selected ids both resolving to
non-`model` operands) raises no alert, removes both operands from the
snapshot, appends exactly one derived object — whose stored world
position is the result's bounding-box centroid while the persisted
geometry is translated so its own bounding-box centroid is the origin,
with identity rotation, unit scale, white non-wireframe appearance —
makes that object the sole selection, and logs `CSG Operation`. -/
theorem csg_success (st : AppState) (op : CSGOp) (freshId : String)
    (geo : Geometry) (a b : String) (o1 o2 : SceneObject)
    (hsel : st.selectedIds = [a, b])
    (h1 : st.objects.find? (fun o => o.id = a) = some o1)
    (h2 : st.objects.find? (fun o => o.id = b) = some o2)
    (hm1 : o1.type ≠ "model") (hm2 : o2.type ≠ "model")
    (hgeo : geo ≠ []) :
    (performCSG st op freshId geo).2 = none ∧
      (performCSG st op freshId geo).1.objects =
        st.objects.filter (fun o => ¬ [a, b].contains o.id) ++
          [csgResultObject freshId (bboxCenter geo)
            (translateGeo geo (bboxCenter geo))] ∧
      o1 ∉ (performCSG st op freshId geo).1.objects ∧
      o2 ∉ (performCSG st op freshId geo).1.objects ∧
      (csgResultObject freshId (bboxCenter geo)
          (translateGeo geo (bboxCenter geo))).position = bboxCenter geo ∧
      bboxCenter (translateGeo geo (bboxCenter geo)) = ⟨0, 0, 0⟩ ∧
      (csgResultObject freshId (bboxCenter geo)
          (translateGeo geo (bboxCenter geo))).rotation = ⟨0, 0, 0⟩ ∧
      (csgResultObject freshId (bboxCenter geo)
          (translateGeo geo (bboxCenter geo))).scale = ⟨1, 1, 1⟩ ∧
      (csgResultObject freshId (bboxCenter geo)
          (translateGeo geo (bboxCenter geo))).color = .jstr "#ffffff" ∧
      (csgResultObject freshId (bboxCenter geo)
          (translateGeo geo (bboxCenter geo))).wireframe = .jbool false ∧
      (csgResultObject freshId (bboxCenter geo)
          (translateGeo geo (bboxCenter geo))).type = "model" ∧
      (csgResultObject freshId (bboxCenter geo)
          (translateGeo geo (bboxCenter geo))).data =
        some (translateGeo geo (bboxCenter geo)) ∧
      (performCSG st op freshId geo).1.selectedIds = [freshId] ∧
      (performCSG st op freshId geo).1.historyLog =
        takeLast 20 (st.historyLog ++
          [⟨"CSG Operation", (performCSG st op freshId geo).1.objects⟩]) := by
  have ha : o1.id = a := by
    have := List.find?_some h1
    simpa using this
  have hb : o2.id = b := by
    have := List.find?_some h2
    simpa using this
  have hres : performCSG st op freshId geo =
      ({ updateState st
          (st.objects.filter (fun o => ¬ [a, b].contains o.id) ++
            [csgResultObject freshId (bboxCenter geo)
              (translateGeo geo (bboxCenter geo))]) "CSG Operation" with
        selectedIds := [freshId] }, none) := by
    unfold performCSG
    rw [hsel]
    simp [h1, h2, hm1, hm2]
  rw [hres]
  have hobjs :
      ({ updateState st
          (st.objects.filter (fun o => ¬ [a, b].contains o.id) ++
            [csgResultObject freshId (bboxCenter geo)
              (translateGeo geo (bboxCenter geo))]) "CSG Operation" with
        selectedIds := [freshId] } : AppState).objects =
        st.objects.filter (fun o => ¬ [a, b].contains o.id) ++
          [csgResultObject freshId (bboxCenter geo)
            (translateGeo geo (bboxCenter geo))] := rfl
  refine ⟨rfl, rfl, ?_, ?_, rfl, bboxCenter_translate geo hgeo, rfl, rfl, rfl,
    rfl, rfl, rfl, rfl, rfl⟩
  · rw [hobjs]
    intro hmem
    rcases List.mem_append.1 hmem with hin | hin
    · have := (List.mem_filter.1 hin).2
      simp [ha] at this
    · have : o1 = csgResultObject freshId (bboxCenter geo)
          (translateGeo geo (bboxCenter geo)) := by simpa using hin
      exact hm1 (by rw [this]; rfl)
  · rw [hobjs]
    intro hmem
    rcases List.mem_append.1 hmem with hin | hin
    · have := (List.mem_filter.1 hin).2
      simp [hb] at this
    · have : o2 = csgResultObject freshId (bboxCenter geo)
          (translateGeo geo (bboxCenter geo)) := by simpa using hin
      exact hm2 (by rw [this]; rfl)

/-- A second concrete primitive object. -/
def cubeB : SceneObject :=
  { id := "b", type := "cube", position := ⟨2, 0, 0⟩, rotation := ⟨0, 0, 0⟩,
    scale := ⟨1, 1, 1⟩, color := .jstr "#ec4899", wireframe := .jbool false,
    mirror := some ⟨false, "x"⟩ }

/-- A state with two primitive objects, both selected. -/
def twoSelectedState : AppState := ⟨[cubeA, cubeB], [], ["a", "b"], "select"⟩

/-- A concrete evaluator result geometry. -/
def geoW : Geometry := [⟨1, 1, 1⟩, ⟨-1, -1, -1⟩]

theorem csg_success_witness :
    twoSelectedState.selectedIds = ["a", "b"] ∧
      twoSelectedState.objects.find? (fun o => o.id = "a") = some cubeA ∧
      twoSelectedState.objects.find? (fun o => o.id = "b") = some cubeB ∧
      cubeA.type ≠ "model" ∧ geoW ≠ [] ∧
      (performCSG twoSelectedState CSGOp.ADDITION "n" geoW).2 = none ∧
      (performCSG twoSelectedState CSGOp.ADDITION "n" geoW).1.selectedIds =
        ["n"] := by
  have h := csg_success twoSelectedState CSGOp.ADDITION "n" geoW "a" "b"
    cubeA cubeB rfl (by decide) (by decide) (by decide) (by decide) (by decide)
  obtain ⟨c1, _, _, _, _, _, _, _, _, _, _, _, c13, _⟩ := h
  exact ⟨rfl, by decide, by decide, by decide, by decide, c1, c13⟩

/-! ## C4 — numeric coercion of malformed input -/

/-- The object a given id resolves to in the current snapshot. -/
def objOf (st : AppState) (id : String) : Option SceneObject :=
  st.objects.find? (fun o => o.id = id)

theorem find_map_ite (l : List SceneObject) (id : String)
    (f : SceneObject → SceneObject) (hf : ∀ o, (f o).id = o.id) :
    (l.map (fun o => if o.id = id then f o else o)).find?
        (fun o => o.id = id) =
      (l.find? (fun o => o.id = id)).map f := by
  induction l with
  | nil => rfl
  | cons o t ih =>
    by_cases h : o.id = id
    · simp [List.find?, h, hf]
    · simp [List.find?, h, ih]

/-- A concrete extrudable object with the default extrusion settings. -/
def starE : SceneObject :=
  { id := "e", type := "ex_star", position := ⟨2, 0, 0⟩, rotation := ⟨0, 0, 0⟩,
    scale := ⟨1, 1, 1⟩, color := .jstr "#ec4899", wireframe := .jbool false,
    extrudeSettings := some defaultExtrude, mirror := some ⟨false, "x"⟩ }

/-- A state holding that object. -/
def extrudeState : AppState := ⟨[starE], [], ["e"], "select"⟩

/-- C4 counterexample: feeding the malformed string `not-a-number` to the
numeric extrusion setting `depth` stores `NaN`, not `0` — the claim that
every malformed numeric edit stores 0 fails on `updateExtrudeSetting`,
whose `parseFloat(value)` has no `|| 0` fallback. -/
theorem extrude_setting_nan_counterexample :
    ((objOf (updateExtrudeSetting extrudeState "e" ESetting.depth
          (JSValue.jstr "not-a-number")) "e").bind
        (fun o => o.extrudeSettings.map ExtrudeSettings.depth)) =
      some JSValue.jnan ∧ JSValue.jnan ≠ JSValue.jnum 0 := by
  constructor
  · decide
  · decide

/-- C4 amended: malformed (non-numeric) input never raises and never
rejects the edit; an axis field set through `updateTransform` coerces it
to `0` (in particular `position.x` becomes `0`), while a numeric
The per-object update `updateExtrudeSetting` applies to the matching
object when the setting is `depth`. -/
def setDepthOf (value : String) (o : SceneObject) : SceneObject :=
  let s := o.extrudeSettings.getD emptyExtrude
  { o with extrudeSettings := some (s.set ESetting.depth (parseFloatVal (JSValue.jstr value))) }

/-- C4 amended: malformed (non-numeric) input never raises and never
rejects the edit; an axis field set through `updateTransform` coerces it
to `0` (in particular `position.x` becomes `0`), while a numeric
extrusion setting set through `updateExtrudeSetting` stores `NaN`. -/
theorem numeric_coercion_amended (st : AppState) (id : String) (value : String)
    (h : parseFloat value = JSValue.jnan) :
    (objOf (updateTransform st id TKind.position "x" value) id).map
        (fun o => o.position.x) = (objOf st id).map (fun _ => (0 : ℚ)) ∧
      ((objOf (updateExtrudeSetting st id ESetting.depth (JSValue.jstr value))
            id).bind (fun o => o.extrudeSettings.map ExtrudeSettings.depth)) =
        (objOf st id).map (fun _ => JSValue.jnan) := by
  constructor
  · have key := find_map_ite st.objects id
      (fun o => o.setT TKind.position
        ((o.getT TKind.position).setIdx 0 (orZero (parseFloat value))))
      (fun o => rfl)
    show ((st.objects.map (fun o =>
        if o.id = id then o.setT TKind.position
          ((o.getT TKind.position).setIdx 0 (orZero (parseFloat value)))
        else o)).find? (fun o => o.id = id)).map (fun o => o.position.x) =
      (objOf st id).map (fun _ => (0 : ℚ))
    rw [key]
    unfold objOf
    cases st.objects.find? (fun o => o.id = id) with
    | none => rfl
    | some o =>
      simp [SceneObject.setT, SceneObject.getT, Vec3.setIdx, h, orZero]
  · have key := find_map_ite st.objects id (setDepthOf value) (fun o => rfl)
    show (((st.objects.map (fun o =>
        if o.id = id then setDepthOf value o else o)).find?
          (fun o => o.id = id)).bind
        (fun o => o.extrudeSettings.map ExtrudeSettings.depth)) =
      (objOf st id).map (fun _ => JSValue.jnan)
    rw [key]
    unfold objOf
    cases st.objects.find? (fun o => o.id = id) with
    | none => rfl
    | some o =>
      simp [setDepthOf, ExtrudeSettings.set, parseFloatVal, h]

theorem numeric_coercion_amended_witness :
    parseFloat "not-a-number" = JSValue.jnan ∧
      ((objOf (updateTransform extrudeState "e" TKind.position "x"
            "not-a-number") "e").map (fun o => o.position.x) =
          (objOf extrudeState "e").map (fun _ => (0 : ℚ)) ∧
        ((objOf (updateExtrudeSetting extrudeState "e" ESetting.depth
              (JSValue.jstr "not-a-number")) "e").bind
            (fun o => o.extrudeSettings.map ExtrudeSettings.depth)) =
          (objOf extrudeState "e").map (fun _ => JSValue.jnan)) :=
  ⟨by decide,
    numeric_coercion_amended extrudeState "e" "not-a-number" (by decide)⟩

/-! ## C5 — selection validity invariant -/

/-- Every selected id references an object present in the current
snapshot. -/
abbrev selectionValid (st : AppState) : Prop :=
  ∀ i ∈ st.selectedIds, ∃ o ∈ st.objects, o.id = i

theorem valid_of_map (l : List SceneObject) (sel : List String)
    (f : SceneObject → SceneObject) (hf : ∀ o, (f o).id = o.id)
    (h : ∀ i ∈ sel, ∃ o ∈ l, o.id = i) :
    ∀ i ∈ sel, ∃ o ∈ l.map f, o.id = i := by
  intro i hi
  obtain ⟨o, ho, hoid⟩ := h i hi
  exact ⟨f o, List.mem_map_of_mem _ ho, by rw [hf, hoid]⟩

/-- C5 counterexample: loading a full scene document replaces the object
list but leaves the selection set untouched, so loading the empty scene
while object `a` is selected leaves a selection id that references no
object — the invariant is violated after a full-scene load. -/
theorem selection_valid_counterexample :
    ¬ selectionValid (loadScene oneSelectedState [] "s.json") := by
  intro h
  obtain ⟨o, ho, _⟩ := h "a" (by decide)
  simp [loadScene, updateState, oneSelectedState] at ho

/-- C5 amended: the selection-validity invariant is preserved by add,
every per-object update, drag commit, delete, delete-selected, restore,
CSG and single-model import — but not by full-scene load, which keeps
the old selection while replacing the snapshot.  Deleting an object
prunes its id from the selection; deleting the only selected object
empties the selection. -/
theorem selection_valid_amended (st : AppState) (h : selectionValid st) :
    (∀ type freshId px py colr,
        selectionValid (addObject st type freshId px py colr)) ∧
      (∀ id k axis value, selectionValid (updateTransform st id k axis value)) ∧
      (∀ id f v, selectionValid (updateObject st id f v)) ∧
      (∀ id k v, selectionValid (updateExtrudeSetting st id k v)) ∧
      (∀ id ms, selectionValid (updateMirrorSetting st id ms)) ∧
      (∀ id p, selectionValid (onUpdateObjectPosition st id p)) ∧
      (∀ id, selectionValid (deleteObject st id)) ∧
      (∀ focused, selectionValid (handleDeleteKey st focused)) ∧
      (∀ snap, selectionValid (restoreState st snap)) ∧
      (∀ op freshId geo, selectionValid (performCSG st op freshId geo).1) ∧
      (∀ freshId url fmt nm, selectionValid (addModel st freshId url fmt nm)) ∧
      (∀ id, (deleteObject st id).selectedIds =
        st.selectedIds.filter (fun i => i ≠ id)) ∧
      (∀ id, st.selectedIds = [id] → (deleteObject st id).selectedIds = []) := by
  refine ⟨?_, ?_, ?_, ?_, ?_, ?_, ?_, ?_, ?_, ?_, ?_, fun id => rfl, ?_⟩
  · intro type freshId px py colr i hi
    have hie : i = freshId := by simpa [addObject, updateState] using hi
    subst hie
    refine ⟨addedObject type i px py colr, ?_, rfl⟩
    show _ ∈ st.objects ++ [addedObject type i px py colr]
    exact List.mem_append_right _ (List.mem_singleton.2 rfl)
  · intro id k axis value
    exact valid_of_map st.objects st.selectedIds _
      (fun o => by
        by_cases ho : o.id = id <;> cases k <;>
          simp [ho, SceneObject.setT]) h
  · intro id f v
    exact valid_of_map st.objects st.selectedIds _
      (fun o => by
        by_cases ho : o.id = id <;> cases f <;>
          simp [ho, SceneObject.setField]) h
  · intro id k v
    exact valid_of_map st.objects st.selectedIds _
      (fun o => by by_cases ho : o.id = id <;> simp [ho]) h
  · intro id ms
    exact valid_of_map st.objects st.selectedIds _
      (fun o => by by_cases ho : o.id = id <;> simp [ho]) h
  · intro id p
    exact valid_of_map st.objects st.selectedIds _
      (fun o => by by_cases ho : o.id = id <;> simp [ho]) h
  · intro id i hi
    have hmem : i ∈ st.selectedIds ∧ i ≠ id := by
      simpa [deleteObject, updateState] using hi
    obtain ⟨o, ho, hoid⟩ := h i hmem.1
    refine ⟨o, ?_, hoid⟩
    show o ∈ st.objects.filter (fun o => o.id ≠ id)
    exact List.mem_filter.2 ⟨ho, by simp [hoid, hmem.2]⟩
  · intro focused
    unfold handleDeleteKey
    split
    · intro i hi
      simp [deleteSelected, updateState] at hi
    · exact h
  · intro snap i hi
    simp [restoreState] at hi
  · intro op freshId geo
    unfold performCSG
    match hsel : st.selectedIds with
    | [a, b] =>
      match h1 : st.objects.find? (fun o => o.id = a),
          h2 : st.objects.find? (fun o => o.id = b) with
      | some o1, some o2 =>
        by_cases hm : o1.type = "model" ∨ o2.type = "model"
        · simpa [h1, h2, hm, hsel] using h
        · simp only [h1, h2, hm, if_neg, not_false_iff]
          intro i hi
          simp only [List.mem_singleton] at hi
          refine ⟨csgResultObject freshId (bboxCenter geo)
            (translateGeo geo (bboxCenter geo)), ?_, by rw [hi]; rfl⟩
          show _ ∈ (updateState st _ "CSG Operation").objects
          exact List.mem_append_right _ (List.mem_singleton.2 rfl)
      | some o1, none => simpa [h1, h2, hsel] using h
      | none, some o2 => simpa [h1, h2, hsel] using h
      | none, none => simpa [h1, h2, hsel] using h
    | [] => simpa [hsel] using h
    | [x] => simpa [hsel] using h
    | x :: y :: z :: r => simpa [hsel] using h
  · intro freshId url fmt nm i hi
    have hie : i = freshId := by simpa [addModel, updateState] using hi
    subst hie
    refine ⟨importedObject i url fmt nm, ?_, rfl⟩
    show _ ∈ st.objects ++ [importedObject i url fmt nm]
    exact List.mem_append_right _ (List.mem_singleton.2 rfl)
  · intro id hsel
    show st.selectedIds.filter (fun i => i ≠ id) = []
    rw [hsel]
    simp

theorem selection_valid_amended_witness :
    selectionValid oneSelectedState ∧
      selectionValid (deleteObject oneSelectedState "a") ∧
      (deleteObject oneSelectedState "a").selectedIds = [] := by
  have H := selection_valid_amended oneSelectedState (by decide)
  obtain ⟨_, _, _, _, _, _, hdel, _, _, _, _, _, hempty⟩ := H
  exact ⟨by decide, hdel "a", hempty "a" rfl⟩

/-! ## C8 — pointer-down on empty space -/

/-- C8 counterexample: a pointer-down that hits nothing clears the
selection even while shift (multi-select) is held, because `onDown`
calls `onSelect(null)` without forwarding the shift key — the claimed
multi-select no-op on a miss does not happen. -/
theorem shift_miss_clears_counterexample :
    (onDown oneSelectedState PickResult.miss true).selectedIds = [] ∧
      oneSelectedState.selectedIds = ["a"] ∧
      ([] : List String) ≠ ["a"] := by
  refine ⟨rfl, rfl, by decide⟩

/-- C8 amended: a pointer-down miss clears the selection in both modes —
`onDown` always invokes the store's `onSelect` with a null id and the
default `multi = false`.  The multi-mode no-op exists only in `onSelect`
itself: `onSelect(null, true)` leaves the state unchanged, but the
viewport's miss path never passes `true`. -/
theorem miss_click_selection_amended :
    (∀ (st : AppState) (shift : Bool),
        (onDown st PickResult.miss shift).selectedIds = []) ∧
      ∀ st : AppState, onSelect st none true = st := by
  exact ⟨fun st shift => rfl, fun st => rfl⟩

/-! ## C10 — edits addressed at a nonexistent id -/

theorem map_ite_eq_self (l : List SceneObject) (id : String)
    (f : SceneObject → SceneObject) (h : ∀ o ∈ l, o.id ≠ id) :
    l.map (fun o => if o.id = id then f o else o) = l := by
  induction l with
  | nil => rfl
  | cons o t ih =>
    simp only [List.map_cons, List.cons.injEq]
    constructor
    · rw [if_neg (h o (List.mem_cons_self o t))]
    · exact ih fun o' ho' => h o' (List.mem_cons_of_mem _ ho')

/-- C10: addressing any of the four per-object edit operations at an id
present in no object leaves the object list unchanged (the map is the
identity), yet still appends a history entry carrying the edit's label
(and the unchanged snapshot), evicting the oldest entry at capacity; the
edit is not rejected and no notice is produced — these functions have no
alert path at all. -/
theorem nonexistent_id_update (st : AppState) (id : String)
    (h : ∀ o ∈ st.objects, o.id ≠ id) :
    (∀ k axis value,
        (updateTransform st id k axis value).objects = st.objects ∧
          (updateTransform st id k axis value).historyLog =
            takeLast 20 (st.historyLog ++
              [⟨"Set " ++ axis.toUpper ++ " " ++ tkindStr k ++ " of " ++ id,
                st.objects⟩])) ∧
      (∀ f v,
        (updateObject st id f v).objects = st.objects ∧
          (updateObject st id f v).historyLog =
            takeLast 20 (st.historyLog ++
              [⟨"Update " ++ objFieldStr f ++ " of " ++ id, st.objects⟩])) ∧
      (∀ k v,
        (updateExtrudeSetting st id k v).objects = st.objects ∧
          (updateExtrudeSetting st id k v).historyLog =
            takeLast 20 (st.historyLog ++
              [⟨"Update " ++ esettingStr k, st.objects⟩])) ∧
      (∀ ms,
        (updateMirrorSetting st id ms).objects = st.objects ∧
          (updateMirrorSetting st id ms).historyLog =
            takeLast 20 (st.historyLog ++
              [⟨"Update Mirror " ++ mirrorSetStr ms, st.objects⟩])) := by
  refine ⟨?_, ?_, ?_, ?_⟩
  · intro k axis value
    have hmap : (updateTransform st id k axis value).objects = st.objects :=
      map_ite_eq_self st.objects id _ h
    refine ⟨hmap, ?_⟩
    show takeLast 20 (st.historyLog ++
      [⟨_, (updateTransform st id k axis value).objects⟩]) = _
    rw [hmap]
  · intro f v
    have hmap : (updateObject st id f v).objects = st.objects :=
      map_ite_eq_self st.objects id _ h
    refine ⟨hmap, ?_⟩
    show takeLast 20 (st.historyLog ++
      [⟨_, (updateObject st id f v).objects⟩]) = _
    rw [hmap]
  · intro k v
    have hmap : (updateExtrudeSetting st id k v).objects = st.objects :=
      map_ite_eq_self st.objects id _ h
    refine ⟨hmap, ?_⟩
    show takeLast 20 (st.historyLog ++
      [⟨_, (updateExtrudeSetting st id k v).objects⟩]) = _
    rw [hmap]
  · intro ms
    have hmap : (updateMirrorSetting st id ms).objects = st.objects :=
      map_ite_eq_self st.objects id _ h
    refine ⟨hmap, ?_⟩
    show takeLast 20 (st.historyLog ++
      [⟨_, (updateMirrorSetting st id ms).objects⟩]) = _
    rw [hmap]

theorem nonexistent_id_update_witness :
    (∀ o ∈ oneSelectedState.objects, o.id ≠ "zzz") ∧
      (updateTransform oneSelectedState "zzz" TKind.position "x" "5").objects =
        oneSelectedState.objects ∧
      (updateMirrorSetting oneSelectedState "zzz"
          (MirrorSet.setEnabled true)).objects = oneSelectedState.objects ∧
      (updateMirrorSetting oneSelectedState "zzz"
          (MirrorSet.setEnabled true)).historyLog.map HistoryEntry.label =
        ["Update Mirror enabled"] := by
  have H := nonexistent_id_update oneSelectedState "zzz" (by decide)
  refine ⟨by decide, (H.1 TKind.position "x" "5").1,
    (H.2.2.2 (MirrorSet.setEnabled true)).1, ?_⟩
  rw [(H.2.2.2 (MirrorSet.setEnabled true)).2]
  rfl

/-! ## C9 — mirror-modifier reconciliation -/

theorem sbeq_true {a b : String} (h : a = b) : (a == b) = true :=
  beq_iff_eq.2 h

theorem sbeq_false {a b : String} (h : ¬ a = b) : (a == b) = false :=
  beq_eq_false_iff_ne.2 h

theorem lookup_map_replace_self (c : Cache) (k : String) (v : Renderable)
    (hs : (c.lookup k).isSome) :
    (c.map fun p => if p.1 = k then (k, v) else p).lookup k = some v := by
  induction c with
  | nil => simp [List.lookup] at hs
  | cons p t ih =>
    obtain ⟨pk, pv⟩ := p
    by_cases hp : pk = k
    · subst hp
      rw [List.map_cons, if_pos rfl]
      simp [List.lookup, sbeq_true rfl]
    · have h2 : (t.lookup k).isSome := by
        simpa [List.lookup, sbeq_false fun he => hp he.symm] using hs
      simp only [List.map_cons, if_neg hp]
      simpa [List.lookup, sbeq_false fun he => hp he.symm] using ih h2

theorem lookup_map_replace_ne (c : Cache) (k k' : String) (v : Renderable)
    (h : k' ≠ k) :
    (c.map fun p => if p.1 = k then (k, v) else p).lookup k' = c.lookup k' := by
  induction c with
  | nil => rfl
  | cons p t ih =>
    obtain ⟨pk, pv⟩ := p
    by_cases hp : pk = k
    · subst hp
      rw [List.map_cons, if_pos rfl]
      simp [List.lookup, sbeq_false h, ih]
    · simp only [List.map_cons, if_neg hp]
      by_cases hk : pk = k'
      · simp [List.lookup, sbeq_true hk.symm]
      · simp [List.lookup, sbeq_false fun he => hk he.symm, ih]

theorem lookup_append (k : String) (c d : Cache) :
    (c ++ d).lookup k = ((c.lookup k).or (d.lookup k)) := by
  induction c with
  | nil => simp [List.lookup]
  | cons p t ih =>
    obtain ⟨pk, pv⟩ := p
    by_cases hp : pk = k
    · simp [List.lookup, sbeq_true hp.symm]
    · simp [List.lookup, sbeq_false fun he => hp he.symm, ih]

theorem cacheInsert_lookup_self (k : String) (v : Renderable) (c : Cache) :
    (cacheInsert k v c).lookup k = some v := by
  unfold cacheInsert
  split
  next hs => exact lookup_map_replace_self c k v hs
  next hs =>
    rw [lookup_append]
    rw [Option.not_isSome_iff_eq_none.1 hs]
    simp [List.lookup, sbeq_true rfl]

theorem cacheInsert_lookup_ne (k k' : String) (v : Renderable) (c : Cache)
    (h : k' ≠ k) : (cacheInsert k v c).lookup k' = c.lookup k' := by
  unfold cacheInsert
  split
  · exact lookup_map_replace_ne c k k' v h
  · rw [lookup_append]
    have hnil : ((([(k, v)] : Cache)).lookup k') = none := by
      simp [List.lookup, sbeq_false h]
    rw [hnil]
    cases c.lookup k' <;> rfl

theorem cacheErase_lookup_self (k : String) (c : Cache) :
    (cacheErase k c).lookup k = none := by
  induction c with
  | nil => rfl
  | cons p t ih =>
    obtain ⟨pk, pv⟩ := p
    by_cases hp : pk = k
    · subst hp
      simpa [cacheErase, List.filter_cons] using ih
    · unfold cacheErase at *
      simpa [List.filter_cons, hp, List.lookup,
        sbeq_false fun he => hp he.symm] using ih

theorem cacheErase_lookup_ne (k k' : String) (c : Cache) (h : k' ≠ k) :
    (cacheErase k c).lookup k' = c.lookup k' := by
  induction c with
  | nil => rfl
  | cons p t ih =>
    obtain ⟨pk, pv⟩ := p
    by_cases hp : pk = k
    · subst hp
      unfold cacheErase at *
      simpa [List.filter_cons, List.lookup, sbeq_false h] using ih
    · by_cases hk : pk = k'
      · subst hk
        unfold cacheErase at *
        simp [List.filter_cons, hp, List.lookup, sbeq_true rfl]
      · unfold cacheErase at *
        simpa [List.filter_cons, hp, List.lookup,
          sbeq_false fun he => hk he.symm] using ih

theorem filter_valid_cons (objs : List SceneObject) (pk : String)
    (pv : Renderable) (t : Cache) :
    List.filter (fun p : String × Renderable => (validIds objs).contains p.1)
        ((pk, pv) :: t) =
      if (validIds objs).contains pk then
        (pk, pv) :: List.filter
          (fun p : String × Renderable => (validIds objs).contains p.1) t
      else List.filter
        (fun p : String × Renderable => (validIds objs).contains p.1) t := by
  rw [List.filter_cons]

theorem cleanupCache_lookup (objs : List SceneObject) (c : Cache) (k : String) :
    (cleanupCache objs c).lookup k =
      if k ∈ validIds objs then c.lookup k else none := by
  induction c with
  | nil =>
    simp only [cleanupCache, List.filter_nil]
    split <;> rfl
  | cons p t ih =>
    obtain ⟨pk, pv⟩ := p
    unfold cleanupCache at *
    by_cases hv : pk ∈ validIds objs
    · rw [filter_valid_cons, if_pos (List.elem_eq_true_of_mem hv)]
      by_cases hk : pk = k
      · subst hk
        simp [List.lookup, sbeq_true rfl, hv]
      · rw [show List.lookup k ((pk, pv) :: List.filter
            (fun p => (validIds objs).contains p.1) t) =
            List.lookup k (List.filter
              (fun p => (validIds objs).contains p.1) t) from by
          simp [List.lookup, sbeq_false fun he => hk he.symm]]
        rw [ih]
        by_cases hvk : k ∈ validIds objs <;>
          simp [hvk, List.lookup, sbeq_false fun he => hk he.symm]
    · rw [filter_valid_cons,
        if_neg (fun hc => hv (List.mem_of_elem_eq_true hc))]
      rw [ih]
      by_cases hk : pk = k
      · subst hk
        simp [hv]
      · by_cases hvk : k ∈ validIds objs <;>
          simp [hvk, List.lookup, sbeq_false fun he => hk he.symm]

theorem mirrorStep_lookup_other (c1 : Cache) (obj : SceneObject)
    (prim : Renderable) (k : String) (h : k ≠ mirrorKey obj.id) :
    (mirrorStep c1 obj prim).lookup k = c1.lookup k := by
  unfold mirrorStep
  cases hm : obj.mirror with
  | none => exact cacheErase_lookup_ne _ _ _ h
  | some m =>
    by_cases he : m.enabled
    · simp only [he, if_true]
      exact cacheInsert_lookup_ne _ _ _ _ h
    · simp only [he, if_false]
      exact cacheErase_lookup_ne _ _ _ h

theorem syncObj_lookup_other (d : Bool) (sel : List String) (c : Cache)
    (o : SceneObject) (k : String) (h1 : k ≠ o.id) (h2 : k ≠ mirrorKey o.id) :
    (syncObj d sel c o).lookup k = c.lookup k := by
  unfold syncObj
  rw [mirrorStep_lookup_other _ _ _ _ h2]
  exact cacheInsert_lookup_ne _ _ _ _ h1

theorem foldl_syncObj_lookup (d : Bool) (sel : List String)
    (l : List SceneObject) (k : String)
    (h : ∀ o ∈ l, k ≠ o.id ∧ k ≠ mirrorKey o.id) :
    ∀ c : Cache, (l.foldl (syncObj d sel) c).lookup k = c.lookup k := by
  induction l with
  | nil => intro c; rfl
  | cons o t ih =>
    intro c
    rw [List.foldl_cons]
    rw [ih (fun o' ho' => h o' (List.mem_cons_of_mem _ ho'))]
    have hh := h o (List.mem_cons_self o t)
    exact syncObj_lookup_other d sel c o k hh.1 hh.2

theorem syncObj_self_enabled (d : Bool) (sel : List String) (c : Cache)
    (O : SceneObject) (m : Mirror) (hm : O.mirror = some m)
    (he : m.enabled = true) (hOne : O.id ≠ mirrorKey O.id) :
    ∃ prim mir, (syncObj d sel c O).lookup O.id = some prim ∧
      (syncObj d sel c O).lookup (mirrorKey O.id) = some mir ∧
      mir.position = prim.position ∧ mir.rotation = prim.rotation ∧
      mir.scale = mirrorScale m.axis prim.scale := by
  refine ⟨primOf d sel c O,
    { position := (primOf d sel c O).position, rotation := (primOf d sel c O).rotation, scale := mirrorScale m.axis (primOf d sel c O).scale, ud := ((List.lookup (mirrorKey O.id) (cacheInsert O.id (primOf d sel c O) c)).getD (primOf d sel c O)).ud },
    ?_, ?_, rfl, rfl, rfl⟩
  · unfold syncObj
    rw [mirrorStep_lookup_other _ _ _ _ hOne]
    exact cacheInsert_lookup_self _ _ _
  · unfold syncObj mirrorStep
    rw [hm]
    simp only [he, if_true]
    exact cacheInsert_lookup_self _ _ _

theorem syncObj_self_disabled (d : Bool) (sel : List String) (c : Cache)
    (O : SceneObject)
    (hm : O.mirror = none ∨ ∃ m, O.mirror = some m ∧ m.enabled = false) :
    (syncObj d sel c O).lookup (mirrorKey O.id) = none := by
  unfold syncObj mirrorStep
  rcases hm with hm | ⟨m, hm, he⟩
  · rw [hm]
    exact cacheErase_lookup_self _ _
  · rw [hm]
    simp only [he, if_false]
    exact cacheErase_lookup_self _ _

theorem keys_map_replace (c : Cache) (k : String) (v : Renderable) :
    (c.map fun p => if p.1 = k then (k, v) else p).map Prod.fst =
      c.map Prod.fst := by
  induction c with
  | nil => rfl
  | cons p t ih =>
    obtain ⟨pk, pv⟩ := p
    by_cases hp : pk = k
    · subst hp
      simp [ih]
    · simp only [List.map_cons, if_neg hp, ih]

theorem lookup_none_not_mem_keys (c : Cache) (k : String)
    (h : ¬ (c.lookup k).isSome) : k ∉ c.map Prod.fst := by
  induction c with
  | nil => simp
  | cons p t ih =>
    obtain ⟨pk, pv⟩ := p
    by_cases hp : pk = k
    · subst hp
      exact absurd (by simp [List.lookup, sbeq_true rfl]) h
    · have h2 : ¬ (t.lookup k).isSome := by
        intro hs
        exact h (by simpa [List.lookup, sbeq_false fun he => hp he.symm] using hs)
      simp only [List.map_cons, List.mem_cons, not_or]
      exact ⟨fun he => hp he.symm, ih h2⟩

theorem cacheInsert_nodup_keys (k : String) (v : Renderable) (c : Cache)
    (h : (c.map Prod.fst).Nodup) :
    ((cacheInsert k v c).map Prod.fst).Nodup := by
  unfold cacheInsert
  split
  · rw [keys_map_replace]
    exact h
  next hs =>
    rw [List.map_append]
    refine List.Nodup.append h (List.nodup_singleton k) ?_
    intro a ha hb
    have : a = k := by simpa using hb
    subst this
    exact lookup_none_not_mem_keys c a hs ha

theorem filter_nodup_keys (c : Cache) (p : String × Renderable → Bool)
    (h : (c.map Prod.fst).Nodup) :
    ((c.filter p).map Prod.fst).Nodup :=
  List.Nodup.sublist (List.Sublist.map Prod.fst (List.filter_sublist c)) h

theorem mirrorStep_nodup_keys (c1 : Cache) (obj : SceneObject)
    (prim : Renderable) (h : (c1.map Prod.fst).Nodup) :
    ((mirrorStep c1 obj prim).map Prod.fst).Nodup := by
  unfold mirrorStep
  cases obj.mirror with
  | none => exact filter_nodup_keys _ _ h
  | some m =>
    by_cases he : m.enabled
    · simp only [he, if_true]
      exact cacheInsert_nodup_keys _ _ _ h
    · simp only [he, if_false]
      exact filter_nodup_keys _ _ h

theorem syncObj_nodup_keys (d : Bool) (sel : List String) (c : Cache)
    (o : SceneObject) (h : (c.map Prod.fst).Nodup) :
    ((syncObj d sel c o).map Prod.fst).Nodup :=
  mirrorStep_nodup_keys _ _ _ (cacheInsert_nodup_keys _ _ _ h)

theorem foldl_syncObj_nodup_keys (d : Bool) (sel : List String)
    (l : List SceneObject) :
    ∀ c : Cache, (c.map Prod.fst).Nodup →
      ((l.foldl (syncObj d sel) c).map Prod.fst).Nodup := by
  induction l with
  | nil => intro c h; exact h
  | cons o t ih =>
    intro c h
    rw [List.foldl_cons]
    exact ih _ (syncObj_nodup_keys d sel c o h)

theorem mirrorKey_inj {a b : String} (h : mirrorKey a = mirrorKey b) :
    a = b := by
  unfold mirrorKey at h
  have hd : a.data ++ "_mirror".data = b.data ++ "_mirror".data := by
    have := congrArg String.data h
    simpa [String.data_append] using this
  cases a with
  | mk da =>
    cases b with
    | mk db =>
      simp only at hd
      exact congrArg String.mk (List.append_cancel_right hd)

theorem mem_validIds_of_mem {objs : List SceneObject} {O : SceneObject}
    (h : O ∈ objs) : O.id ∈ validIds objs := by
  unfold validIds
  exact List.mem_flatMap.2 ⟨O, h, List.mem_cons_self _ _⟩

theorem mirrorKey_mem_validIds {objs : List SceneObject} {O : SceneObject}
    {m : Mirror} (h : O ∈ objs) (hm : O.mirror = some m)
    (he : m.enabled = true) : mirrorKey O.id ∈ validIds objs := by
  unfold validIds
  refine List.mem_flatMap.2 ⟨O, h, ?_⟩
  rw [hm]
  simp [he]

/-- C9: for an object `O` with the mirror modifier enabled on some axis,
a reconciliation pass leaves exactly one derived renderable under the
key `O.id ++ "_mirror"` (the cache keys stay pairwise distinct), whose
position and rotation equal the primary renderable's and whose scale is
the primary's with the configured axis negated (`mirrorScale`); with the
modifier absent or disabled the pass leaves no such cache entry.  The
side conditions say ids are unique and no object id is itself a mirror
key, which holds for the app's generated ids. -/
theorem mirror_sync (drag : Bool) (sel : List String) (objs : List SceneObject)
    (c : Cache) (O : SceneObject)
    (hmem : O ∈ objs)
    (hids : (objs.map SceneObject.id).Nodup)
    (hcross : ∀ o ∈ objs, ∀ o' ∈ objs, o.id ≠ mirrorKey o'.id)
    (hkeys : (c.map Prod.fst).Nodup) :
    ((syncPass drag sel objs c).map Prod.fst).Nodup ∧
      (∀ m, O.mirror = some m → m.enabled = true →
        ∃ prim mir, (syncPass drag sel objs c).lookup O.id = some prim ∧
          (syncPass drag sel objs c).lookup (mirrorKey O.id) = some mir ∧
          mir.position = prim.position ∧ mir.rotation = prim.rotation ∧
          mir.scale = mirrorScale m.axis prim.scale) ∧
      ((O.mirror = none ∨ ∃ m, O.mirror = some m ∧ m.enabled = false) →
        (syncPass drag sel objs c).lookup (mirrorKey O.id) = none) := by
  have hOin : O ∈ objs := hmem
  have hOne : O.id ≠ mirrorKey O.id := hcross O hOin O hOin
  obtain ⟨l1, l2, hobj⟩ := List.append_of_mem hmem
  subst hobj
  have hl2in : ∀ o ∈ l2, o ∈ l1 ++ O :: l2 := fun o ho =>
    List.mem_append_right _ (List.mem_cons_of_mem _ ho)
  have hOid_notin : O.id ∉ l2.map SceneObject.id := by
    have h1 : ((O :: l2).map SceneObject.id).Nodup := by
      rw [List.map_append] at hids
      exact hids.of_append_right
    exact (List.nodup_cons.1 h1).1
  have hid_ne : ∀ o ∈ l2, o.id ≠ O.id := by
    intro o ho he
    exact hOid_notin (he ▸ List.mem_map_of_mem SceneObject.id ho)
  have hpres1 : ∀ o ∈ l2, O.id ≠ o.id ∧ O.id ≠ mirrorKey o.id := by
    intro o ho
    exact ⟨fun he => hid_ne o ho he.symm, hcross O hOin o (hl2in o ho)⟩
  have hpres2 : ∀ o ∈ l2, mirrorKey O.id ≠ o.id ∧
      mirrorKey O.id ≠ mirrorKey o.id := by
    intro o ho
    constructor
    · exact fun he => hcross o (hl2in o ho) O hOin he.symm
    · intro he
      exact hid_ne o ho (mirrorKey_inj he.symm ▸ rfl)
  have hsplit : (l1 ++ O :: l2).foldl (syncObj drag sel) c =
      l2.foldl (syncObj drag sel)
        (syncObj drag sel (l1.foldl (syncObj drag sel) c) O) := by
    rw [List.foldl_append, List.foldl_cons]
  refine ⟨?_, ?_, ?_⟩
  · exact filter_nodup_keys _ _
      (foldl_syncObj_nodup_keys drag sel _ c hkeys)
  · intro m hm he
    obtain ⟨prim, mir, hp, hmir, e1, e2, e3⟩ :=
      syncObj_self_enabled drag sel (l1.foldl (syncObj drag sel) c) O m hm
        he hOne
    refine ⟨prim, mir, ?_, ?_, e1, e2, e3⟩
    · show (cleanupCache _ _).lookup O.id = some prim
      rw [hsplit, cleanupCache_lookup,
        if_pos (mem_validIds_of_mem hOin),
        foldl_syncObj_lookup drag sel l2 O.id hpres1]
      exact hp
    · show (cleanupCache _ _).lookup (mirrorKey O.id) = some mir
      rw [hsplit, cleanupCache_lookup,
        if_pos (mirrorKey_mem_validIds hOin hm he),
        foldl_syncObj_lookup drag sel l2 (mirrorKey O.id) hpres2]
      exact hmir
  · intro hdm
    have hnone := syncObj_self_disabled drag sel
      (l1.foldl (syncObj drag sel) c) O hdm
    show (cleanupCache _ _).lookup (mirrorKey O.id) = none
    rw [hsplit, cleanupCache_lookup,
      foldl_syncObj_lookup drag sel l2 (mirrorKey O.id) hpres2, hnone]
    split <;> rfl

/-- A concrete object with the mirror modifier enabled on the x axis. -/
def mirrorObj : SceneObject :=
  { id := "m1", type := "cube", position := ⟨1, 2, 3⟩, rotation := ⟨0, 0, 0⟩,
    scale := ⟨2, 1, 1⟩, color := .jstr "#6366f1", wireframe := .jbool false,
    mirror := some ⟨true, "x"⟩ }

theorem mirror_sync_witness :
    mirrorObj ∈ [mirrorObj] ∧
      (([mirrorObj].map SceneObject.id).Nodup) ∧
      ∃ prim mir,
        (syncPass false [] [mirrorObj] []).lookup mirrorObj.id = some prim ∧
          (syncPass false [] [mirrorObj] []).lookup
            (mirrorKey mirrorObj.id) = some mir ∧
          mir.position = prim.position ∧ mir.rotation = prim.rotation ∧
          mir.scale = mirrorScale "x" prim.scale := by
  have H := mirror_sync false [] [mirrorObj] [] mirrorObj
    (List.mem_singleton.2 rfl) (by decide) (by decide) (by decide)
  exact ⟨List.mem_singleton.2 rfl, by decide, H.2.1 ⟨true, "x"⟩ rfl rfl⟩
